import Mathlib

/-!
Shallow embedding of the market-maker core (aggregator, trading engine,
PnL tracker).  Rust `f64` prices are modelled as `ℚ`, `i64` timestamps as
`ℤ`, `u32` counters as `ℕ`.  The random draw of the engine and the wall
clock are passed as explicit parameters.
-/

/-- One venue's bid/ask observation (src/aggregator.rs, `Quote`). -/
structure Quote where
  bid : ℚ
  ask : ℚ
  timestamp : ℤ
deriving DecidableEq

/-- The snapshot of the three venue slots (src/aggregator.rs, `AggregatedPrices`). -/
structure AggregatedPrices where
  binance : Option Quote
  jupiter : Option Quote
  cowswap : Option Quote
deriving DecidableEq

/-- The present venues, in the fixed order the Rust code visits them. -/
def AggregatedPrices.venues (p : AggregatedPrices) : List Quote :=
  [p.binance, p.jupiter, p.cowswap].filterMap id

/-- `AggregatedPrices::median_quote`: collect present bids, asks and
timestamps, sort bids and asks, pick index `len / 2` from each, and take
the max timestamp.  `Vec::sort_by` is modelled by `List.insertionSort`
(any sorted rearrangement; stability is irrelevant for plain numbers);
the out-of-range default of `getD` is never used since the index is in
range. -/
def AggregatedPrices.median_quote (p : AggregatedPrices) : Option Quote :=
  let bids := p.venues.map Quote.bid
  let asks := p.venues.map Quote.ask
  let timestamps := p.venues.map Quote.timestamp
  if bids.isEmpty then none
  else
    let sorted_bids := List.insertionSort (· ≤ ·) bids
    let sorted_asks := List.insertionSort (· ≤ ·) asks
    let latest_timestamp := timestamps.max?.getD 0
    some { bid := (sorted_bids[sorted_bids.length / 2]?).getD 0,
           ask := (sorted_asks[sorted_asks.length / 2]?).getD 0,
           timestamp := latest_timestamp }

/-- `AggregatedPrices::best_quote`: fold over the present venues keeping a
running max bid, running min ask, and a latest timestamp that starts at
`0`. -/
def AggregatedPrices.best_quote (p : AggregatedPrices) : Option Quote :=
  let folded := p.venues.foldl
    (fun (acc : Option ℚ × Option ℚ × ℤ) (quote : Quote) =>
      (some (acc.1.elim quote.bid (fun b => max b quote.bid)),
       some (acc.2.1.elim quote.ask (fun a => min a quote.ask)),
       max acc.2.2 quote.timestamp))
    (none, none, 0)
  match folded with
  | (some bid, some ask, ts) => some { bid := bid, ask := ask, timestamp := ts }
  | _ => none

/-- `AggregatedPrices::median_mid`: per-venue mids, sorted, index `len / 2`. -/
def AggregatedPrices.median_mid (p : AggregatedPrices) : Option ℚ :=
  let mids := p.venues.map (fun q => (q.bid + q.ask) / 2)
  if mids.isEmpty then none
  else
    let sorted := List.insertionSort (· ≤ ·) mids
    some ((sorted[sorted.length / 2]?).getD 0)

/-- Trade side (src/trader.rs, `TradeSide`). -/
inductive TradeSide where
  | Buy
  | Sell
deriving DecidableEq

/-- An executed simulated trade (src/trader.rs, `Trade`). -/
structure Trade where
  side : TradeSide
  price : ℚ
  amount_eth : ℚ
  notional_usd : ℚ
  pnl : ℚ
  timestamp : ℤ
  execution_prob : ℚ
deriving DecidableEq

/-- Engine configuration (src/trader.rs, `TradingEngine`). -/
structure TradingEngine where
  notional_per_trade : ℚ
  use_advanced_model : Bool
deriving DecidableEq

/-- `TradingEngine::calculate_execution_probability`. -/
def TradingEngine.calculate_execution_probability (e : TradingEngine)
    (our_price median_price best_price : ℚ) (side : TradeSide) : ℚ :=
  if e.use_advanced_model = false then 0.70
  else
    match side with
    | .Buy =>
      if best_price ≤ our_price then 0.90
      else if our_price ≤ median_price then 0.20
      else
        let range := best_price - median_price
        if 0 < range then
          let position := (our_price - median_price) / range
          0.20 + position * 0.70
        else 0.20
    | .Sell =>
      if our_price ≤ best_price then 0.90
      else if median_price ≤ our_price then 0.20
      else
        let range := median_price - best_price
        if 0 < range then
          let position := (median_price - our_price) / range
          0.20 + position * 0.70
        else 0.20

/-- `TradingEngine::calculate_pnl`. -/
def TradingEngine.calculate_pnl (_e : TradingEngine) (side : TradeSide)
    (our_price market_price amount_eth : ℚ) : ℚ :=
  match side with
  | .Buy => (market_price - our_price) * amount_eth
  | .Sell => (our_price - market_price) * amount_eth

/-- `TradingEngine::attempt_trade`.  The uniform random draw and the wall
clock are the explicit parameters `draw` and `now`. -/
def TradingEngine.attempt_trade (e : TradingEngine) (prices : AggregatedPrices)
    (side : TradeSide) (draw : ℚ) (now : ℤ) : Option Trade :=
  match prices.median_quote, prices.best_quote with
  | some median_quote, some best_quote =>
    let our_price := match side with | .Buy => median_quote.bid | .Sell => median_quote.ask
    let market_price := match side with | .Buy => best_quote.bid | .Sell => best_quote.ask
    let amount_eth := e.notional_per_trade / our_price
    let median_price := match side with | .Buy => median_quote.bid | .Sell => median_quote.ask
    let best_price := match side with | .Buy => best_quote.bid | .Sell => best_quote.ask
    let execution_prob := e.calculate_execution_probability our_price median_price best_price side
    if draw < execution_prob then
      some { side := side, price := our_price, amount_eth := amount_eth,
             notional_usd := e.notional_per_trade,
             pnl := e.calculate_pnl side our_price market_price amount_eth,
             timestamp := now, execution_prob := execution_prob }
    else none
  | _, _ => none

/-- Market display summary (src/trader.rs, `MarketSummary`). -/
structure MarketSummary where
  median_bid : ℚ
  median_ask : ℚ
  median_mid : ℚ
  best_bid : ℚ
  best_ask : ℚ
  spread_bps : ℚ
deriving DecidableEq

/-- `TradingEngine::get_market_summary`. -/
def TradingEngine.get_market_summary (_e : TradingEngine)
    (prices : AggregatedPrices) : Option MarketSummary :=
  match prices.median_quote, prices.best_quote, prices.median_mid with
  | some median_quote, some best_quote, some median_mid =>
    some { median_bid := median_quote.bid,
           median_ask := median_quote.ask,
           median_mid := median_mid,
           best_bid := best_quote.bid,
           best_ask := best_quote.ask,
           spread_bps := (median_quote.ask - median_quote.bid) / median_mid * 10000 }
  | _, _, _ => none

/-- Running aggregates (src/pnl_tracker.rs, `PnLStats`). -/
structure PnLStats where
  total_pnl : ℚ
  total_trades : ℕ
  buy_trades : ℕ
  sell_trades : ℕ
  buy_pnl : ℚ
  sell_pnl : ℚ
  total_notional : ℚ
  avg_execution_prob : ℚ
deriving DecidableEq

/-- `PnLStats::new`. -/
def PnLStats.new : PnLStats :=
  { total_pnl := 0, total_trades := 0, buy_trades := 0, sell_trades := 0,
    buy_pnl := 0, sell_pnl := 0, total_notional := 0, avg_execution_prob := 0 }

/-- Ledger plus stats (src/pnl_tracker.rs, `PnLTracker`). -/
structure PnLTracker where
  stats : PnLStats
  trades : List Trade
deriving DecidableEq

/-- `PnLTracker::new`. -/
def PnLTracker.new : PnLTracker := { stats := PnLStats.new, trades := [] }

/-- `PnLTracker::record_trade`.  The `u32` expression
`total_trades - 1` is truncated subtraction on `ℕ`, evaluated after the
increment, exactly as in the source. -/
def PnLTracker.record_trade (t : PnLTracker) (trade : Trade) : PnLTracker :=
  let s0 := t.stats
  let s1 := { s0 with
    total_pnl := s0.total_pnl + trade.pnl,
    total_trades := s0.total_trades + 1,
    total_notional := s0.total_notional + trade.notional_usd }
  let s2 := match trade.side with
    | .Buy => { s1 with buy_trades := s1.buy_trades + 1, buy_pnl := s1.buy_pnl + trade.pnl }
    | .Sell => { s1 with sell_trades := s1.sell_trades + 1, sell_pnl := s1.sell_pnl + trade.pnl }
  let s3 := { s2 with
    avg_execution_prob :=
      (s2.avg_execution_prob * ((s2.total_trades - 1 : ℕ) : ℚ) + trade.execution_prob)
        / (s2.total_trades : ℚ) }
  { stats := s3, trades := t.trades ++ [trade] }

/-- Folding `record_trade` over a list of trades, for invariants over any
call sequence. -/
def PnLTracker.record_all (t : PnLTracker) (l : List Trade) : PnLTracker :=
  l.foldl PnLTracker.record_trade t

/-! ## Helper lemmas about the running max/min folds of `best_quote` -/

theorem foldl_max_init_le {α : Type} [LinearOrder α] (f : Quote → α) :
    ∀ (l : List Quote) (b : α), b ≤ l.foldl (fun acc q => max acc (f q)) b
  | [], b => le_refl b
  | x :: xs, b =>
    le_trans (le_max_left b (f x)) (foldl_max_init_le f xs (max b (f x)))

theorem foldl_max_le_of_mem {α : Type} [LinearOrder α] (f : Quote → α) :
    ∀ (l : List Quote) (b : α) (v : Quote), v ∈ l →
      f v ≤ l.foldl (fun acc q => max acc (f q)) b
  | [], _, v, hv => absurd hv (List.not_mem_nil v)
  | x :: xs, b, v, hv => by
    rcases List.mem_cons.mp hv with h | h
    · subst h
      exact le_trans (le_max_right b (f v)) (foldl_max_init_le f xs (max b (f v)))
    · exact foldl_max_le_of_mem f xs (max b (f x)) v h

theorem foldl_max_acc_or_mem {α : Type} [LinearOrder α] (f : Quote → α) :
    ∀ (l : List Quote) (b : α),
      l.foldl (fun acc q => max acc (f q)) b = b ∨
        ∃ v ∈ l, l.foldl (fun acc q => max acc (f q)) b = f v
  | [], _ => Or.inl rfl
  | x :: xs, b => by
    rcases foldl_max_acc_or_mem f xs (max b (f x)) with h | ⟨v, hv, h⟩
    · rcases max_cases b (f x) with ⟨hm, _⟩ | ⟨hm, _⟩
      · left
        rw [List.foldl_cons, h, hm]
      · right
        exact ⟨x, List.mem_cons_self x xs, by rw [List.foldl_cons, h, hm]⟩
    · exact Or.inr ⟨v, List.mem_cons_of_mem x hv, by rw [List.foldl_cons, h]⟩

theorem foldl_min_le_init {α : Type} [LinearOrder α] (f : Quote → α) :
    ∀ (l : List Quote) (b : α), l.foldl (fun acc q => min acc (f q)) b ≤ b
  | [], b => le_refl b
  | x :: xs, b =>
    le_trans (foldl_min_le_init f xs (min b (f x))) (min_le_left b (f x))

theorem foldl_min_le_of_mem {α : Type} [LinearOrder α] (f : Quote → α) :
    ∀ (l : List Quote) (b : α) (v : Quote), v ∈ l →
      l.foldl (fun acc q => min acc (f q)) b ≤ f v
  | [], _, v, hv => absurd hv (List.not_mem_nil v)
  | x :: xs, b, v, hv => by
    rcases List.mem_cons.mp hv with h | h
    · subst h
      exact le_trans (foldl_min_le_init f xs (min b (f v))) (min_le_right b (f v))
    · exact foldl_min_le_of_mem f xs (min b (f x)) v h

theorem foldl_min_acc_or_mem {α : Type} [LinearOrder α] (f : Quote → α) :
    ∀ (l : List Quote) (b : α),
      l.foldl (fun acc q => min acc (f q)) b = b ∨
        ∃ v ∈ l, l.foldl (fun acc q => min acc (f q)) b = f v
  | [], _ => Or.inl rfl
  | x :: xs, b => by
    rcases foldl_min_acc_or_mem f xs (min b (f x)) with h | ⟨v, hv, h⟩
    · rcases min_cases b (f x) with ⟨hm, _⟩ | ⟨hm, _⟩
      · left
        rw [List.foldl_cons, h, hm]
      · right
        exact ⟨x, List.mem_cons_self x xs, by rw [List.foldl_cons, h, hm]⟩
    · exact Or.inr ⟨v, List.mem_cons_of_mem x hv, by rw [List.foldl_cons, h]⟩

/-- `best_quote` written as a single fold over the present-venue list: the
accumulator of the source becomes a running max bid, running min ask and a
running max timestamp seeded with `0`. -/
theorem best_quote_eq_venues (p : AggregatedPrices) :
    p.best_quote =
      match p.venues with
      | [] => none
      | v :: vs =>
        some { bid := vs.foldl (fun acc q => max acc q.bid) v.bid,
               ask := vs.foldl (fun acc q => min acc q.ask) v.ask,
               timestamp := vs.foldl (fun acc q => max acc q.timestamp) (max 0 v.timestamp) } := by
  rcases p with ⟨b, j, c⟩
  rcases b with _ | vb <;> rcases j with _ | vj <;> rcases c with _ | vc <;> rfl

theorem best_quote_eq_none_iff (p : AggregatedPrices) :
    p.best_quote = none ↔ p.venues = [] := by
  rw [best_quote_eq_venues]
  rcases p.venues with _ | ⟨v, vs⟩ <;> simp

theorem best_quote_bounds (p : AggregatedPrices) (b : Quote)
    (hb : p.best_quote = some b) :
    ∀ v ∈ p.venues, v.bid ≤ b.bid ∧ b.ask ≤ v.ask ∧ v.timestamp ≤ b.timestamp := by
  rw [best_quote_eq_venues] at hb
  rcases hv : p.venues with _ | ⟨v0, vs⟩
  · rw [hv] at hb
    exact absurd hb (by simp)
  · rw [hv] at hb
    simp only [Option.some.injEq] at hb
    subst hb
    intro v hv'
    rcases List.mem_cons.mp hv' with h | h
    · subst h
      refine ⟨foldl_max_init_le Quote.bid vs v.bid, foldl_min_le_init Quote.ask vs v.ask, ?_⟩
      exact le_trans (le_max_right 0 v.timestamp)
        (foldl_max_init_le Quote.timestamp vs (max 0 v.timestamp))
    · exact ⟨foldl_max_le_of_mem Quote.bid vs v0.bid v h,
        foldl_min_le_of_mem Quote.ask vs v0.ask v h,
        foldl_max_le_of_mem Quote.timestamp vs (max 0 v0.timestamp) v h⟩

theorem best_quote_attained (p : AggregatedPrices) (b : Quote)
    (hb : p.best_quote = some b) :
    (∃ v ∈ p.venues, b.bid = v.bid) ∧ (∃ v ∈ p.venues, b.ask = v.ask) ∧
      0 ≤ b.timestamp ∧
      (b.timestamp = 0 ∨ ∃ v ∈ p.venues, b.timestamp = v.timestamp) := by
  rw [best_quote_eq_venues] at hb
  rcases hv : p.venues with _ | ⟨v0, vs⟩
  · rw [hv] at hb
    exact absurd hb (by simp)
  · rw [hv] at hb
    simp only [Option.some.injEq] at hb
    subst hb
    refine ⟨?_, ?_, ?_, ?_⟩
    · rcases foldl_max_acc_or_mem Quote.bid vs v0.bid with h | ⟨v, hmem, h⟩
      · exact ⟨v0, List.mem_cons_self v0 vs, h⟩
      · exact ⟨v, List.mem_cons_of_mem v0 hmem, h⟩
    · rcases foldl_min_acc_or_mem Quote.ask vs v0.ask with h | ⟨v, hmem, h⟩
      · exact ⟨v0, List.mem_cons_self v0 vs, h⟩
      · exact ⟨v, List.mem_cons_of_mem v0 hmem, h⟩
    · exact le_trans (le_max_left 0 v0.timestamp)
        (foldl_max_init_le Quote.timestamp vs (max 0 v0.timestamp))
    · rcases foldl_max_acc_or_mem Quote.timestamp vs (max 0 v0.timestamp) with h | ⟨v, hmem, h⟩
      · rcases max_cases (0 : ℤ) v0.timestamp with ⟨hm, _⟩ | ⟨hm, _⟩
        · left
          rw [h, hm]
        · right
          exact ⟨v0, List.mem_cons_self v0 vs, by rw [h, hm]⟩
      · right
        exact ⟨v, List.mem_cons_of_mem v0 hmem, h⟩

/-! ## Helper lemmas about `median_quote` -/

theorem median_quote_eq_none_iff (p : AggregatedPrices) :
    p.median_quote = none ↔ p.venues = [] := by
  unfold AggregatedPrices.median_quote
  by_cases h : (p.venues.map Quote.bid).isEmpty
  · simp only [h, if_true]
    simpa [List.isEmpty_iff, List.map_eq_nil_iff] using h
  · simp only [h, if_false]
    have : ¬ p.venues = [] := by
      intro hv
      exact h (by simp [hv])
    simp [this]

theorem median_quote_mem (p : AggregatedPrices) (m : Quote)
    (hm : p.median_quote = some m) :
    (∃ v ∈ p.venues, m.bid = v.bid) ∧ (∃ v ∈ p.venues, m.ask = v.ask) := by
  unfold AggregatedPrices.median_quote at hm
  by_cases h : (p.venues.map Quote.bid).isEmpty
  · rw [if_pos h] at hm
    exact absurd hm (by simp)
  · rw [if_neg h] at hm
    simp only [Option.some.injEq] at hm
    subst hm
    have hne : p.venues ≠ [] := by
      intro hv
      exact h (by simp [hv])
    constructor
    · have hlen : (List.insertionSort (· ≤ ·) (p.venues.map Quote.bid)).length =
          (p.venues.map Quote.bid).length :=
        (List.perm_insertionSort (· ≤ ·) (p.venues.map Quote.bid)).length_eq
      have hpos : 0 < (List.insertionSort (· ≤ ·) (p.venues.map Quote.bid)).length := by
        rw [hlen, List.length_map]
        exact List.length_pos.mpr hne
      have hidx : (List.insertionSort (· ≤ ·) (p.venues.map Quote.bid)).length / 2 <
          (List.insertionSort (· ≤ ·) (p.venues.map Quote.bid)).length :=
        Nat.div_lt_self hpos (by norm_num)
      have hget : (List.insertionSort (· ≤ ·) (p.venues.map Quote.bid))[
          (List.insertionSort (· ≤ ·) (p.venues.map Quote.bid)).length / 2]? =
          some ((List.insertionSort (· ≤ ·) (p.venues.map Quote.bid))[
            (List.insertionSort (· ≤ ·) (p.venues.map Quote.bid)).length / 2]) :=
        List.getElem?_eq_getElem hidx
      have hmem : ((List.insertionSort (· ≤ ·) (p.venues.map Quote.bid))[
            (List.insertionSort (· ≤ ·) (p.venues.map Quote.bid)).length / 2]) ∈
          p.venues.map Quote.bid := by
        rw [← List.mem_insertionSort (· ≤ ·)]
        exact List.getElem_mem hidx
      rcases List.mem_map.mp hmem with ⟨v, hv, hveq⟩
      refine ⟨v, hv, ?_⟩
      simp only [hget, Option.getD_some]
      exact hveq.symm
    · have hlen : (List.insertionSort (· ≤ ·) (p.venues.map Quote.ask)).length =
          (p.venues.map Quote.ask).length :=
        (List.perm_insertionSort (· ≤ ·) (p.venues.map Quote.ask)).length_eq
      have hpos : 0 < (List.insertionSort (· ≤ ·) (p.venues.map Quote.ask)).length := by
        rw [hlen, List.length_map]
        exact List.length_pos.mpr hne
      have hidx : (List.insertionSort (· ≤ ·) (p.venues.map Quote.ask)).length / 2 <
          (List.insertionSort (· ≤ ·) (p.venues.map Quote.ask)).length :=
        Nat.div_lt_self hpos (by norm_num)
      have hget : (List.insertionSort (· ≤ ·) (p.venues.map Quote.ask))[
          (List.insertionSort (· ≤ ·) (p.venues.map Quote.ask)).length / 2]? =
          some ((List.insertionSort (· ≤ ·) (p.venues.map Quote.ask))[
            (List.insertionSort (· ≤ ·) (p.venues.map Quote.ask)).length / 2]) :=
        List.getElem?_eq_getElem hidx
      have hmem : ((List.insertionSort (· ≤ ·) (p.venues.map Quote.ask))[
            (List.insertionSort (· ≤ ·) (p.venues.map Quote.ask)).length / 2]) ∈
          p.venues.map Quote.ask := by
        rw [← List.mem_insertionSort (· ≤ ·)]
        exact List.getElem_mem hidx
      rcases List.mem_map.mp hmem with ⟨v, hv, hveq⟩
      refine ⟨v, hv, ?_⟩
      simp only [hget, Option.getD_some]
      exact hveq.symm

/-- The median quote never beats the best quote: the median bid is one of
the venue bids and the best bid is the running max, and dually for asks. -/
theorem median_le_best_aux (p : AggregatedPrices) (m b : Quote)
    (hm : p.median_quote = some m) (hb : p.best_quote = some b) :
    m.bid ≤ b.bid ∧ b.ask ≤ m.ask := by
  rcases median_quote_mem p m hm with ⟨⟨v1, hv1, he1⟩, ⟨v2, hv2, he2⟩⟩
  constructor
  · rw [he1]
    exact (best_quote_bounds p b hb v1 hv1).1
  · rw [he2]
    exact (best_quote_bounds p b hb v2 hv2).2.1

/-! ## Helper lemmas about the advanced execution-probability model -/

theorem exec_prob_buy_def (e : TradingEngine) (he : e.use_advanced_model = true)
    (our median best : ℚ) :
    e.calculate_execution_probability our median best .Buy =
      if best ≤ our then 0.90
      else if our ≤ median then 0.20
      else if 0 < best - median then 0.20 + (our - median) / (best - median) * 0.70
      else 0.20 := by
  simp [TradingEngine.calculate_execution_probability, he]

theorem exec_prob_sell_def (e : TradingEngine) (he : e.use_advanced_model = true)
    (our median best : ℚ) :
    e.calculate_execution_probability our median best .Sell =
      if our ≤ best then 0.90
      else if median ≤ our then 0.20
      else if 0 < median - best then 0.20 + (median - our) / (median - best) * 0.70
      else 0.20 := by
  simp [TradingEngine.calculate_execution_probability, he]

theorem exec_prob_buy_lb (e : TradingEngine) (he : e.use_advanced_model = true)
    (our median best : ℚ) :
    0.20 ≤ e.calculate_execution_probability our median best .Buy := by
  rw [exec_prob_buy_def e he]
  split_ifs with h1 h2 h3
  · norm_num
  · norm_num
  · have hnum : 0 ≤ our - median := by
      push_neg at h2
      linarith
    have := mul_nonneg (div_nonneg hnum (le_of_lt h3)) (by norm_num : (0 : ℚ) ≤ 0.70)
    linarith
  · norm_num

theorem exec_prob_buy_ub (e : TradingEngine) (he : e.use_advanced_model = true)
    (our median best : ℚ) :
    e.calculate_execution_probability our median best .Buy ≤ 0.90 := by
  rw [exec_prob_buy_def e he]
  split_ifs with h1 h2 h3
  · norm_num
  · norm_num
  · have hfr : (our - median) / (best - median) ≤ 1 := by
      rw [div_le_one h3]
      push_neg at h1
      linarith
    have := mul_le_mul_of_nonneg_right hfr (by norm_num : (0 : ℚ) ≤ 0.70)
    linarith
  · norm_num

theorem exec_prob_sell_lb (e : TradingEngine) (he : e.use_advanced_model = true)
    (our median best : ℚ) :
    0.20 ≤ e.calculate_execution_probability our median best .Sell := by
  rw [exec_prob_sell_def e he]
  split_ifs with h1 h2 h3
  · norm_num
  · norm_num
  · have hnum : 0 ≤ median - our := by
      push_neg at h2
      linarith
    have := mul_nonneg (div_nonneg hnum (le_of_lt h3)) (by norm_num : (0 : ℚ) ≤ 0.70)
    linarith
  · norm_num

theorem exec_prob_sell_ub (e : TradingEngine) (he : e.use_advanced_model = true)
    (our median best : ℚ) :
    e.calculate_execution_probability our median best .Sell ≤ 0.90 := by
  rw [exec_prob_sell_def e he]
  split_ifs with h1 h2 h3
  · norm_num
  · norm_num
  · have hfr : (median - our) / (median - best) ≤ 1 := by
      rw [div_le_one h3]
      push_neg at h1
      linarith
    have := mul_le_mul_of_nonneg_right hfr (by norm_num : (0 : ℚ) ≤ 0.70)
    linarith
  · norm_num

theorem exec_prob_buy_mono (e : TradingEngine) (he : e.use_advanced_model = true)
    (median best p1 p2 : ℚ) (h12 : p1 ≤ p2) :
    e.calculate_execution_probability p1 median best .Buy ≤
      e.calculate_execution_probability p2 median best .Buy := by
  by_cases hb2 : best ≤ p2
  · have h2 : e.calculate_execution_probability p2 median best .Buy = 0.90 := by
      rw [exec_prob_buy_def e he, if_pos hb2]
    rw [h2]
    exact exec_prob_buy_ub e he p1 median best
  · by_cases hm1 : p1 ≤ median
    · have h1 : e.calculate_execution_probability p1 median best .Buy = 0.20 := by
        rw [exec_prob_buy_def e he, if_neg (by push_neg at hb2 ⊢; linarith), if_pos hm1]
      rw [h1]
      exact exec_prob_buy_lb e he p2 median best
    · have hb1 : ¬ best ≤ p1 := by
        push_neg at hb2 ⊢
        linarith
      have hm2 : ¬ p2 ≤ median := by
        push_neg at hm1 ⊢
        linarith
      have hr : 0 < best - median := by
        push_neg at hb1 hm1
        linarith
      rw [exec_prob_buy_def e he, exec_prob_buy_def e he,
        if_neg hb1, if_neg hm1, if_pos hr, if_neg hb2, if_neg hm2, if_pos hr]
      have hfr : (p1 - median) / (best - median) ≤ (p2 - median) / (best - median) := by
        rw [div_le_div_iff_of_pos_right hr]
        linarith
      have := mul_le_mul_of_nonneg_right hfr (by norm_num : (0 : ℚ) ≤ 0.70)
      linarith

theorem exec_prob_sell_anti (e : TradingEngine) (he : e.use_advanced_model = true)
    (median best p1 p2 : ℚ) (h12 : p1 ≤ p2) :
    e.calculate_execution_probability p2 median best .Sell ≤
      e.calculate_execution_probability p1 median best .Sell := by
  by_cases hb1 : p1 ≤ best
  · have h1 : e.calculate_execution_probability p1 median best .Sell = 0.90 := by
      rw [exec_prob_sell_def e he, if_pos hb1]
    rw [h1]
    exact exec_prob_sell_ub e he p2 median best
  · by_cases hm2 : median ≤ p2
    · have h2 : e.calculate_execution_probability p2 median best .Sell = 0.20 := by
        rw [exec_prob_sell_def e he, if_neg (by push_neg at hb1 ⊢; linarith), if_pos hm2]
      rw [h2]
      exact exec_prob_sell_lb e he p1 median best
    · have hb2 : ¬ p2 ≤ best := by
        push_neg at hb1 ⊢
        linarith
      have hm1 : ¬ median ≤ p1 := by
        push_neg at hm2 ⊢
        linarith
      have hr : 0 < median - best := by
        push_neg at hb1 hm2
        linarith
      rw [exec_prob_sell_def e he, exec_prob_sell_def e he,
        if_neg hb2, if_neg hm2, if_pos hr, if_neg hb1, if_neg hm1, if_pos hr]
      have hfr : (median - p2) / (median - best) ≤ (median - p1) / (median - best) := by
        rw [div_le_div_iff_of_pos_right hr]
        linarith
      have := mul_le_mul_of_nonneg_right hfr (by norm_num : (0 : ℚ) ≤ 0.70)
      linarith

/-! ## Helper lemmas about the PnL tracker -/

theorem record_trade_preserves (t : PnLTracker) (tr : Trade)
    (h1 : t.stats.total_trades = t.stats.buy_trades + t.stats.sell_trades)
    (h2 : t.stats.total_pnl = t.stats.buy_pnl + t.stats.sell_pnl)
    (h3 : t.stats.total_trades = t.trades.length) :
    ((t.record_trade tr).stats.total_trades =
        (t.record_trade tr).stats.buy_trades + (t.record_trade tr).stats.sell_trades) ∧
    ((t.record_trade tr).stats.total_pnl =
        (t.record_trade tr).stats.buy_pnl + (t.record_trade tr).stats.sell_pnl) ∧
    ((t.record_trade tr).stats.total_trades = (t.record_trade tr).trades.length) := by
  rcases tr with ⟨side, price, amount, notional, pnl, ts, ep⟩
  cases side <;>
    refine ⟨?_, ?_, ?_⟩ <;>
    simp [PnLTracker.record_trade] <;>
    first
      | omega
      | linarith

/-- Two concrete trades used for the rolling-average example, with
execution probabilities `0.8` and `0.4`. -/
def trade_prob_08 : Trade :=
  { side := .Buy, price := 100, amount_eth := 1, notional_usd := 100,
    pnl := 0, timestamp := 0, execution_prob := 0.8 }

/-- Second concrete trade for the rolling-average example. -/
def trade_prob_04 : Trade :=
  { side := .Sell, price := 100, amount_eth := 1, notional_usd := 100,
    pnl := 0, timestamp := 0, execution_prob := 0.4 }

theorem record_trade_avg_example :
    ((PnLTracker.new.record_trade trade_prob_08).record_trade
        trade_prob_04).stats.avg_execution_prob = 0.6 := by
  norm_num [PnLTracker.record_trade, PnLTracker.new, PnLStats.new, trade_prob_08, trade_prob_04]

/-- Claim C6: `record_trade` adds the trade pnl to `total_pnl`, bumps the
total counter and the counter of the trade's side by one, adds the trade
notional to `total_notional`, and updates the rolling average execution
probability by `(oldAvg * (n - 1) + prob) / n` with `n` the post-increment
total count; recording probabilities `0.8` then `0.4` from a fresh tracker
gives average `0.6`. -/
theorem record_trade_updates (t : PnLTracker) (tr : Trade) :
    ((t.record_trade tr).stats.total_pnl = t.stats.total_pnl + tr.pnl) ∧
    ((t.record_trade tr).stats.total_trades = t.stats.total_trades + 1) ∧
    ((t.record_trade tr).stats.buy_trades =
        t.stats.buy_trades + (match tr.side with | .Buy => 1 | .Sell => 0)) ∧
    ((t.record_trade tr).stats.sell_trades =
        t.stats.sell_trades + (match tr.side with | .Buy => 0 | .Sell => 1)) ∧
    ((t.record_trade tr).stats.total_notional = t.stats.total_notional + tr.notional_usd) ∧
    ((t.record_trade tr).stats.avg_execution_prob =
        (t.stats.avg_execution_prob * (t.stats.total_trades : ℚ) + tr.execution_prob) /
          ((t.stats.total_trades : ℚ) + 1)) ∧
    (((PnLTracker.new.record_trade trade_prob_08).record_trade
        trade_prob_04).stats.avg_execution_prob = 0.6) := by
  refine ⟨?_, ?_, ?_, ?_, ?_, ?_, record_trade_avg_example⟩ <;>
  · rcases tr with ⟨side, price, amount, notional, pnl, ts, ep⟩
    cases side <;> simp [PnLTracker.record_trade]

/-- Claim C10: starting from a fresh tracker, after any sequence of
`record_trade` calls the totals split by side and the total count matches
the ledger length. -/
theorem pnl_tracker_invariants (l : List Trade) :
    ((PnLTracker.new.record_all l).stats.total_trades =
        (PnLTracker.new.record_all l).stats.buy_trades +
          (PnLTracker.new.record_all l).stats.sell_trades) ∧
    ((PnLTracker.new.record_all l).stats.total_pnl =
        (PnLTracker.new.record_all l).stats.buy_pnl +
          (PnLTracker.new.record_all l).stats.sell_pnl) ∧
    ((PnLTracker.new.record_all l).stats.total_trades =
        (PnLTracker.new.record_all l).trades.length) := by
  have key : ∀ (l : List Trade) (t : PnLTracker),
      (t.stats.total_trades = t.stats.buy_trades + t.stats.sell_trades) →
      (t.stats.total_pnl = t.stats.buy_pnl + t.stats.sell_pnl) →
      (t.stats.total_trades = t.trades.length) →
      ((t.record_all l).stats.total_trades =
          (t.record_all l).stats.buy_trades + (t.record_all l).stats.sell_trades) ∧
      ((t.record_all l).stats.total_pnl =
          (t.record_all l).stats.buy_pnl + (t.record_all l).stats.sell_pnl) ∧
      ((t.record_all l).stats.total_trades = (t.record_all l).trades.length) := by
    intro l
    induction l with
    | nil => exact fun t h1 h2 h3 => ⟨h1, h2, h3⟩
    | cons x xs ih =>
      intro t h1 h2 h3
      rcases record_trade_preserves t x h1 h2 h3 with ⟨g1, g2, g3⟩
      exact ih (t.record_trade x) g1 g2 g3
  exact key l PnLTracker.new rfl (by norm_num [PnLTracker.new, PnLStats.new]) rfl

/-! ## Equation lemmas for `attempt_trade`, and sample inputs -/

theorem attempt_trade_none_aux (e : TradingEngine) (p : AggregatedPrices) (side : TradeSide)
    (draw : ℚ) (now : ℤ)
    (h : p.median_quote = none ∨ p.best_quote = none) :
    e.attempt_trade p side draw now = none := by
  unfold TradingEngine.attempt_trade
  rcases h with h | h
  · rw [h]
  · rw [h]
    rcases p.median_quote with _ | m <;> rfl

theorem attempt_trade_buy_eq (e : TradingEngine) (p : AggregatedPrices)
    (draw : ℚ) (now : ℤ) (m b : Quote)
    (hm : p.median_quote = some m) (hb : p.best_quote = some b) :
    e.attempt_trade p .Buy draw now =
      if draw < e.calculate_execution_probability m.bid m.bid b.bid .Buy then
        some { side := .Buy, price := m.bid, amount_eth := e.notional_per_trade / m.bid,
               notional_usd := e.notional_per_trade,
               pnl := e.calculate_pnl .Buy m.bid b.bid (e.notional_per_trade / m.bid),
               timestamp := now,
               execution_prob := e.calculate_execution_probability m.bid m.bid b.bid .Buy }
      else none := by
  unfold TradingEngine.attempt_trade
  rw [hm, hb]

theorem attempt_trade_sell_eq (e : TradingEngine) (p : AggregatedPrices)
    (draw : ℚ) (now : ℤ) (m b : Quote)
    (hm : p.median_quote = some m) (hb : p.best_quote = some b) :
    e.attempt_trade p .Sell draw now =
      if draw < e.calculate_execution_probability m.ask m.ask b.ask .Sell then
        some { side := .Sell, price := m.ask, amount_eth := e.notional_per_trade / m.ask,
               notional_usd := e.notional_per_trade,
               pnl := e.calculate_pnl .Sell m.ask b.ask (e.notional_per_trade / m.ask),
               timestamp := now,
               execution_prob := e.calculate_execution_probability m.ask m.ask b.ask .Sell }
      else none := by
  unfold TradingEngine.attempt_trade
  rw [hm, hb]

/-- A basic-model engine with notional 1000, for concrete instances. -/
def sample_engine : TradingEngine :=
  { notional_per_trade := 1000, use_advanced_model := false }

/-- An advanced-model engine with notional 1000, for concrete instances. -/
def sample_engine_adv : TradingEngine :=
  { notional_per_trade := 1000, use_advanced_model := true }

/-- One-venue snapshot. -/
def sample_snapshot : AggregatedPrices := ⟨some ⟨100, 101, 5⟩, none, none⟩

/-- Two-venue snapshot. -/
def sample_snapshot_two : AggregatedPrices :=
  ⟨some ⟨100, 101, 3⟩, some ⟨99, 102, 4⟩, none⟩

/-- Zero-venue snapshot. -/
def empty_snapshot : AggregatedPrices := ⟨none, none, none⟩

/-- One venue whose timestamp is negative. -/
def negative_ts_snapshot : AggregatedPrices := ⟨some ⟨1, 2, -5⟩, none, none⟩

/-- One venue whose mid price is zero. -/
def zero_mid_snapshot : AggregatedPrices := ⟨some ⟨-1, 1, 0⟩, none, none⟩

/-- The trade produced from `sample_snapshot` by a Buy with draw 0 at time 7. -/
def sample_trade : Trade :=
  { side := .Buy, price := 100, amount_eth := 10, notional_usd := 1000,
    pnl := 0, timestamp := 7, execution_prob := 0.70 }

/-! ## Claims -/

/-- Claim C1: every `Trade` returned by `attempt_trade` has price equal to
the median bid (Buy) or median ask (Sell), amount equal to
`notional_per_trade` divided by that price, and pnl equal to
`(bestBid − price) × amount` for a Buy and `(price − bestAsk) × amount`
for a Sell. -/
theorem attempt_trade_fields (e : TradingEngine) (p : AggregatedPrices) (side : TradeSide)
    (draw : ℚ) (now : ℤ) (t : Trade)
    (h : e.attempt_trade p side draw now = some t) :
    ∃ m b : Quote, p.median_quote = some m ∧ p.best_quote = some b ∧
      match side with
      | .Buy => t.price = m.bid ∧ t.amount_eth = e.notional_per_trade / m.bid ∧
          t.pnl = (b.bid - t.price) * t.amount_eth
      | .Sell => t.price = m.ask ∧ t.amount_eth = e.notional_per_trade / m.ask ∧
          t.pnl = (t.price - b.ask) * t.amount_eth := by
  rcases hm : p.median_quote with _ | m
  · rw [attempt_trade_none_aux e p side draw now (Or.inl hm)] at h
    exact absurd h (by simp)
  rcases hb : p.best_quote with _ | b
  · rw [attempt_trade_none_aux e p side draw now (Or.inr hb)] at h
    exact absurd h (by simp)
  refine ⟨m, b, rfl, rfl, ?_⟩
  cases side
  · rw [attempt_trade_buy_eq e p draw now m b hm hb] at h
    split at h
    · have ht := Option.some.inj h
      subst ht
      simp [TradingEngine.calculate_pnl]
    · exact absurd h (by simp)
  · rw [attempt_trade_sell_eq e p draw now m b hm hb] at h
    split at h
    · have ht := Option.some.inj h
      subst ht
      simp [TradingEngine.calculate_pnl]
    · exact absurd h (by simp)

theorem attempt_trade_fields_witness :
    ∃ m b : Quote, sample_snapshot.median_quote = some m ∧
      sample_snapshot.best_quote = some b ∧
      (sample_trade.price = m.bid ∧
       sample_trade.amount_eth = sample_engine.notional_per_trade / m.bid ∧
       sample_trade.pnl = (b.bid - sample_trade.price) * sample_trade.amount_eth) :=
  attempt_trade_fields sample_engine sample_snapshot .Buy 0 7 sample_trade (by
    norm_num [sample_engine, sample_snapshot, sample_trade, TradingEngine.attempt_trade,
      AggregatedPrices.median_quote, AggregatedPrices.best_quote, AggregatedPrices.venues,
      List.max?, List.filterMap, Option.elim, TradingEngine.calculate_execution_probability,
      TradingEngine.calculate_pnl])

/-- Claim C2: with a fixed side and fixed median/best reference prices,
the advanced-model execution probability is monotone in the
aggressiveness of the quoted price (non-decreasing in the price for a
Buy, non-increasing for a Sell) and always lies in `[0.20, 0.90]`. -/
theorem exec_prob_monotone_bounded (e : TradingEngine)
    (he : e.use_advanced_model = true) (median best p1 p2 : ℚ) (h12 : p1 ≤ p2)
    (side : TradeSide) :
    (0.20 ≤ e.calculate_execution_probability p1 median best side ∧
      e.calculate_execution_probability p1 median best side ≤ 0.90) ∧
    (match side with
     | .Buy => e.calculate_execution_probability p1 median best .Buy ≤
         e.calculate_execution_probability p2 median best .Buy
     | .Sell => e.calculate_execution_probability p2 median best .Sell ≤
         e.calculate_execution_probability p1 median best .Sell) := by
  cases side
  · exact ⟨⟨exec_prob_buy_lb e he p1 median best, exec_prob_buy_ub e he p1 median best⟩,
      exec_prob_buy_mono e he median best p1 p2 h12⟩
  · exact ⟨⟨exec_prob_sell_lb e he p1 median best, exec_prob_sell_ub e he p1 median best⟩,
      exec_prob_sell_anti e he median best p1 p2 h12⟩

theorem exec_prob_monotone_bounded_witness :
    (0.20 ≤ sample_engine_adv.calculate_execution_probability 102 100 110 .Buy ∧
      sample_engine_adv.calculate_execution_probability 102 100 110 .Buy ≤ 0.90) ∧
    (sample_engine_adv.calculate_execution_probability 102 100 110 .Buy ≤
      sample_engine_adv.calculate_execution_probability 105 100 110 .Buy) :=
  exec_prob_monotone_bounded sample_engine_adv rfl 100 110 102 105 (by norm_num) .Buy

/-- Claim C3 counterexample: for a Buy with median 10 and best 5 the
denominator range `best − median = −5` is negative, yet a quoted price of
7 (at or above the best price) makes the advanced model return `0.90`,
not the floor `0.20`. -/
theorem exec_prob_degenerate_counterexample :
    ((5 : ℚ) - 10 ≤ 0) ∧
    sample_engine_adv.calculate_execution_probability 7 10 5 .Buy = 0.90 ∧
    ((0.90 : ℚ) ≠ 0.20) := by
  refine ⟨by norm_num, ?_, by norm_num⟩
  norm_num [sample_engine_adv, TradingEngine.calculate_execution_probability]

/-- Claim C3 (amended): under the advanced model, whenever the denominator
range (`best − median` for a Buy, `median − best` for a Sell) is zero or
negative, the interpolation is never computed: the result is `0.90` when
the quoted price is at or beyond the best price, and the floor `0.20`
otherwise. -/
theorem exec_prob_degenerate_amended (e : TradingEngine)
    (he : e.use_advanced_model = true) (our median best : ℚ) (side : TradeSide)
    (hrange : ((match side with | .Buy => best - median | .Sell => median - best) : ℚ) ≤ 0) :
    match side with
    | .Buy => (best ≤ our → e.calculate_execution_probability our median best .Buy = 0.90) ∧
        (¬ best ≤ our → e.calculate_execution_probability our median best .Buy = 0.20)
    | .Sell => (our ≤ best → e.calculate_execution_probability our median best .Sell = 0.90) ∧
        (¬ our ≤ best → e.calculate_execution_probability our median best .Sell = 0.20) := by
  cases side
  · replace hrange : best - median ≤ 0 := hrange
    constructor
    · intro hgt
      rw [exec_prob_buy_def e he, if_pos hgt]
    · intro hgt
      rw [exec_prob_buy_def e he, if_neg hgt, if_pos (by push_neg at hgt; linarith)]
  · replace hrange : median - best ≤ 0 := hrange
    constructor
    · intro hgt
      rw [exec_prob_sell_def e he, if_pos hgt]
    · intro hgt
      rw [exec_prob_sell_def e he, if_neg hgt, if_pos (by push_neg at hgt; linarith)]

theorem exec_prob_degenerate_amended_witness :
    ((5 : ℚ) ≤ 7 → sample_engine_adv.calculate_execution_probability 7 10 5 .Buy = 0.90) ∧
    (¬ (5 : ℚ) ≤ 7 → sample_engine_adv.calculate_execution_probability 7 10 5 .Buy = 0.20) :=
  exec_prob_degenerate_amended sample_engine_adv rfl 7 10 5 .Buy
    (by show (5 : ℚ) - 10 ≤ 0; norm_num)

/-- Claim C4 counterexample: with a single venue whose timestamp is `−5`,
`best_quote` reports timestamp `0` (the fold's seed), not the maximum
venue timestamp `−5`. -/
theorem best_quote_timestamp_counterexample :
    negative_ts_snapshot.venues = [⟨1, 2, -5⟩] ∧
    negative_ts_snapshot.best_quote = some ⟨1, 2, 0⟩ ∧
    ((0 : ℤ) ≠ -5) := by
  refine ⟨rfl, ?_, by decide⟩
  norm_num [negative_ts_snapshot, AggregatedPrices.best_quote, AggregatedPrices.venues,
    List.filterMap, Option.elim]

/-- Claim C4 (amended): `best_quote` returns `none` iff zero venues are
present; otherwise its bid is the maximum venue bid, its ask the minimum
venue ask, and its timestamp the maximum of `0` and the venue timestamps
(the fold seeds the timestamp with `0`, so all-negative venue timestamps
yield `0`). -/
theorem best_quote_amended (p : AggregatedPrices) :
    (p.best_quote = none ↔ p.venues = []) ∧
    ∀ q : Quote, p.best_quote = some q →
      (∀ v ∈ p.venues, v.bid ≤ q.bid ∧ q.ask ≤ v.ask ∧ v.timestamp ≤ q.timestamp) ∧
      (∃ v ∈ p.venues, q.bid = v.bid) ∧
      (∃ v ∈ p.venues, q.ask = v.ask) ∧
      0 ≤ q.timestamp ∧
      (q.timestamp = 0 ∨ ∃ v ∈ p.venues, q.timestamp = v.timestamp) := by
  refine ⟨best_quote_eq_none_iff p, fun q hq => ?_⟩
  rcases best_quote_attained p q hq with ⟨h1, h2, h3, h4⟩
  exact ⟨best_quote_bounds p q hq, h1, h2, h3, h4⟩

theorem best_quote_amended_witness :
    (negative_ts_snapshot.best_quote = none ↔ negative_ts_snapshot.venues = []) ∧
    ∀ q : Quote, negative_ts_snapshot.best_quote = some q →
      (∀ v ∈ negative_ts_snapshot.venues,
          v.bid ≤ q.bid ∧ q.ask ≤ v.ask ∧ v.timestamp ≤ q.timestamp) ∧
      (∃ v ∈ negative_ts_snapshot.venues, q.bid = v.bid) ∧
      (∃ v ∈ negative_ts_snapshot.venues, q.ask = v.ask) ∧
      0 ≤ q.timestamp ∧
      (q.timestamp = 0 ∨ ∃ v ∈ negative_ts_snapshot.venues, q.timestamp = v.timestamp) :=
  best_quote_amended negative_ts_snapshot

/-- Claim C5: for every snapshot where both consensus quotes exist, the
best quote's bid is at least the median quote's bid and the best quote's
ask is at most the median quote's ask. -/
theorem best_not_worse_than_median (p : AggregatedPrices) (m b : Quote)
    (hm : p.median_quote = some m) (hb : p.best_quote = some b) :
    m.bid ≤ b.bid ∧ b.ask ≤ m.ask :=
  median_le_best_aux p m b hm hb

theorem best_not_worse_than_median_witness :
    (Quote.mk 100 102 4).bid ≤ (Quote.mk 100 101 4).bid ∧
    (Quote.mk 100 101 4).ask ≤ (Quote.mk 100 102 4).ask :=
  best_not_worse_than_median sample_snapshot_two ⟨100, 102, 4⟩ ⟨100, 101, 4⟩
    (by norm_num [sample_snapshot_two, AggregatedPrices.median_quote,
      AggregatedPrices.venues, List.max?, List.filterMap])
    (by norm_num [sample_snapshot_two, AggregatedPrices.best_quote,
      AggregatedPrices.venues, List.filterMap, Option.elim])

/-- Claim C7, missing-data half: whenever the median quote or the best
quote is absent (in particular when zero venues are present),
`attempt_trade` returns `none` — an explicit "no trade".  The claim's
stronger no-failure guarantee does not hold of the source: `median_quote`
sorts with an unwrap of the float comparison (aggregator.rs:49-50), which
aborts when a quote is NaN; NaN has no counterpart in ℚ, so that error
path lies outside this model and the claim is recorded as a code bug. -/
theorem attempt_trade_no_data_none (e : TradingEngine) (p : AggregatedPrices)
    (side : TradeSide) (draw : ℚ) (now : ℤ)
    (h : p.median_quote = none ∨ p.best_quote = none) :
    e.attempt_trade p side draw now = none :=
  attempt_trade_none_aux e p side draw now h

theorem attempt_trade_no_data_none_witness :
    sample_engine.attempt_trade empty_snapshot .Buy 0 0 = none :=
  attempt_trade_no_data_none sample_engine empty_snapshot .Buy 0 0 (Or.inl rfl)

/-- Claim C8 counterexample: with a single venue quoting bid `−1`, ask `1`,
the median mid is `0`, yet `get_market_summary` still produces a summary —
the spread division by `medianMid` is performed with a zero denominator,
so the claimed nonzero guard does not exist in the code. -/
theorem market_summary_zero_mid_counterexample :
    zero_mid_snapshot.median_mid = some 0 ∧
    (sample_engine.get_market_summary zero_mid_snapshot).isSome = true := by
  constructor
  · norm_num [zero_mid_snapshot, AggregatedPrices.median_mid, AggregatedPrices.venues,
      List.filterMap]
  · norm_num [zero_mid_snapshot, TradingEngine.get_market_summary,
      AggregatedPrices.median_quote, AggregatedPrices.best_quote, AggregatedPrices.median_mid,
      AggregatedPrices.venues, List.max?, List.filterMap, Option.elim]

/-- Claim C8 (amended): `get_market_summary` computes
`spread_bps = (medianAsk − medianBid) / medianMid × 10000` whenever the
median quote, best quote and median mid all exist — including when the
median mid is zero; existence of the three values is the only guard. -/
theorem market_summary_spread_amended (e : TradingEngine) (p : AggregatedPrices)
    (m b : Quote) (mid : ℚ) (hm : p.median_quote = some m)
    (hb : p.best_quote = some b) (hmid : p.median_mid = some mid) :
    e.get_market_summary p =
      some { median_bid := m.bid, median_ask := m.ask, median_mid := mid,
             best_bid := b.bid, best_ask := b.ask,
             spread_bps := (m.ask - m.bid) / mid * 10000 } := by
  unfold TradingEngine.get_market_summary
  rw [hm, hb, hmid]

theorem market_summary_spread_amended_witness :
    sample_engine.get_market_summary sample_snapshot =
      some { median_bid := 100, median_ask := 101, median_mid := 201 / 2,
             best_bid := 100, best_ask := 101,
             spread_bps := ((101 : ℚ) - 100) / (201 / 2) * 10000 } :=
  market_summary_spread_amended sample_engine sample_snapshot
    ⟨100, 101, 5⟩ ⟨100, 101, 5⟩ (201 / 2)
    (by norm_num [sample_snapshot, AggregatedPrices.median_quote, AggregatedPrices.venues,
      List.max?, List.filterMap])
    (by norm_num [sample_snapshot, AggregatedPrices.best_quote, AggregatedPrices.venues,
      List.filterMap, Option.elim])
    (by norm_num [sample_snapshot, AggregatedPrices.median_mid, AggregatedPrices.venues,
      List.filterMap])

/-- Claim C9: through `attempt_trade` the quoted price passed to the
advanced probability model is the median side price itself, so the
computed probability is exactly `0.90` when the side's best price equals
the side's median price and exactly `0.20` otherwise; the strict
interpolation branch is never reached. -/
theorem attempt_trade_prob_two_valued (e : TradingEngine)
    (he : e.use_advanced_model = true) (p : AggregatedPrices) (m b : Quote)
    (hm : p.median_quote = some m) (hb : p.best_quote = some b) (side : TradeSide) :
    match side with
    | .Buy => e.calculate_execution_probability m.bid m.bid b.bid .Buy =
        if b.bid = m.bid then 0.90 else 0.20
    | .Sell => e.calculate_execution_probability m.ask m.ask b.ask .Sell =
        if b.ask = m.ask then 0.90 else 0.20 := by
  rcases median_le_best_aux p m b hm hb with ⟨hbid, hask⟩
  cases side
  · show e.calculate_execution_probability m.bid m.bid b.bid .Buy =
      if b.bid = m.bid then 0.90 else 0.20
    rw [exec_prob_buy_def e he]
    by_cases h : b.bid ≤ m.bid
    · rw [if_pos h, if_pos (le_antisymm h hbid)]
    · rw [if_neg h, if_pos (le_refl m.bid), if_neg (fun heq => h (le_of_eq heq))]
  · show e.calculate_execution_probability m.ask m.ask b.ask .Sell =
      if b.ask = m.ask then 0.90 else 0.20
    rw [exec_prob_sell_def e he]
    by_cases h : m.ask ≤ b.ask
    · rw [if_pos h, if_pos (le_antisymm hask h)]
    · rw [if_neg h, if_pos (le_refl m.ask), if_neg (fun heq => h (le_of_eq heq.symm))]

theorem attempt_trade_prob_two_valued_witness :
    sample_engine_adv.calculate_execution_probability (Quote.mk 100 101 5).bid
      (Quote.mk 100 101 5).bid (Quote.mk 100 101 5).bid .Buy =
      if (Quote.mk 100 101 5).bid = (Quote.mk 100 101 5).bid then 0.90 else 0.20 :=
  attempt_trade_prob_two_valued sample_engine_adv rfl sample_snapshot
    ⟨100, 101, 5⟩ ⟨100, 101, 5⟩
    (by norm_num [sample_snapshot, AggregatedPrices.median_quote, AggregatedPrices.venues,
      List.max?, List.filterMap])
    (by norm_num [sample_snapshot, AggregatedPrices.best_quote, AggregatedPrices.venues,
      List.filterMap, Option.elim])
    .Buy
